import Mathlib

set_option maxRecDepth 8192

/-!
Verification of the resperr library: an error-chain metadata resolution
library associating HTTP status codes and user messages with errors.

The embedding models the current generation of the package:
  - chain.go       : the generic `allAs` depth-first walker over the unwrap tree
  - resperr.go(v2) : `StatusCode` / `UserMessage` resolution with defer-on-zero
                     and defer-on-empty conventions, plus probe fallbacks
  - e.go           : the annotated error value `E {S, M, E}` with its
                     `StatusCode`, `UserMessage`, `Error` methods
  - validator.go   : the per-field validation accumulator (both the
                     `Add/AddIf/AddIfUnset` surface and the current
                     `Ensure/EnsureIf` surface) and `validatorErrors`

Error values are modelled as an inductive tree `Err`.  The constructors are
the concrete error types that participate in chains built with this library:
`E` (the annotated error), `msgOnly` (the `m` type produced by `M(...)`),
`validatorErrors`, plus foreign errors: `base` (errors.New / fmt.Errorf
without %w), `wrap` (fmt.Errorf with a single %w; its Error string is the
format text prefix followed by the cause's Error string), `joinErr`
(errors.Join-style multi-cause), and leaves exposing the `Timeout()` /
`Temporary()` probes.  A Go `error` that may be nil is `Option Err`.
No type in the repository implements an `As(any) bool` method, so that
branch of the walker is vacuous and has no counterpart here.
-/

inductive Err : Type where
  | base (msg : String)
  | wrap (pre : String) (cause : Err)
  | joinErr (causes : List Err)
  | E (S : Nat) (M : String) (cause : Option Err)
  | msgOnly (msg : String)
  | timeoutErr (isTimeout : Bool)
  | temporaryErr (isTemporary : Bool)
  | validatorErrors (values : List (String × List String))

/-- Model of Go's `http.StatusText`: the standard text for known HTTP status
codes, `""` for any other code. -/
def statusText : Nat → String
  | 100 => "Continue"
  | 101 => "Switching Protocols"
  | 102 => "Processing"
  | 103 => "Early Hints"
  | 200 => "OK"
  | 201 => "Created"
  | 202 => "Accepted"
  | 203 => "Non-Authoritative Information"
  | 204 => "No Content"
  | 205 => "Reset Content"
  | 206 => "Partial Content"
  | 207 => "Multi-Status"
  | 208 => "Already Reported"
  | 226 => "IM Used"
  | 300 => "Multiple Choices"
  | 301 => "Moved Permanently"
  | 302 => "Found"
  | 303 => "See Other"
  | 304 => "Not Modified"
  | 305 => "Use Proxy"
  | 307 => "Temporary Redirect"
  | 308 => "Permanent Redirect"
  | 400 => "Bad Request"
  | 401 => "Unauthorized"
  | 402 => "Payment Required"
  | 403 => "Forbidden"
  | 404 => "Not Found"
  | 405 => "Method Not Allowed"
  | 406 => "Not Acceptable"
  | 407 => "Proxy Authentication Required"
  | 408 => "Request Timeout"
  | 409 => "Conflict"
  | 410 => "Gone"
  | 411 => "Length Required"
  | 412 => "Precondition Failed"
  | 413 => "Request Entity Too Large"
  | 414 => "Request URI Too Long"
  | 415 => "Unsupported Media Type"
  | 416 => "Requested Range Not Satisfiable"
  | 417 => "Expectation Failed"
  | 418 => "I\x27m a teapot"
  | 421 => "Misdirected Request"
  | 422 => "Unprocessable Entity"
  | 423 => "Locked"
  | 424 => "Failed Dependency"
  | 425 => "Too Early"
  | 426 => "Upgrade Required"
  | 428 => "Precondition Required"
  | 429 => "Too Many Requests"
  | 431 => "Request Header Fields Too Large"
  | 451 => "Unavailable For Legal Reasons"
  | 500 => "Internal Server Error"
  | 501 => "Not Implemented"
  | 502 => "Bad Gateway"
  | 503 => "Service Unavailable"
  | 504 => "Gateway Timeout"
  | 505 => "HTTP Version Not Supported"
  | 506 => "Variant Also Negotiates"
  | 507 => "Insufficient Storage"
  | 508 => "Loop Detected"
  | 510 => "Not Extended"
  | 511 => "Network Authentication Required"
  | _ => ""

/-- Dynamic capability test: does the node's type implement `StatusCoder`
(`Error() string` plus `StatusCode() int`)?  In the package these are `E`
and `validatorErrors`. -/
def isStatusCoder : Err → Bool
  | .E _ _ _ => true
  | .validatorErrors _ => true
  | _ => false

/-- Dynamic capability test for `UserMessenger` (`UserMessage() string`):
implemented by `E` and by the `m` type produced by `M(...)`. -/
def isUserMessenger : Err → Bool
  | .E _ _ _ => true
  | .msgOnly _ => true
  | _ => false

/-- Dynamic capability test for `ValidationError`. -/
def isValidationError : Err → Bool
  | .validatorErrors _ => true
  | _ => false

/-- Dynamic capability test for `interface { error; Timeout() bool }`. -/
def isTimeouter : Err → Bool
  | .timeoutErr _ => true
  | _ => false

/-- Dynamic capability test for `interface { error; Temporary() bool }`. -/
def isTemporaryer : Err → Bool
  | .temporaryErr _ => true
  | _ => false

mutual

/-- Model of Go's `errors.As(err, &target)` for an interface target selected
by predicate `p`: the first node in depth-first pre-order (the node itself,
then its single unwrap or each unwrap of a multi-cause list, in order) whose
dynamic type satisfies `p`. -/
def findAs (p : Err → Bool) : Err → Option Err
  | e@(.E _ _ c) => if p e then some e else findAsOpt p c
  | e@(.wrap _ c) => if p e then some e else findAs p c
  | e@(.joinErr cs) => if p e then some e else findAsList p cs
  | e => if p e then some e else none

/-- `errors.As` applied to a possibly-nil error (`E.Unwrap` can return nil):
`errors.As(nil, target)` is false. -/
def findAsOpt (p : Err → Bool) : Option Err → Option Err
  | none => none
  | some e => findAs p e

/-- `errors.As` descending into each member of an `Unwrap() []error` list,
stopping at the first hit. -/
def findAsList (p : Err → Bool) : List Err → Option Err
  | [] => none
  | e :: es =>
    match findAs p e with
    | some r => some r
    | none => findAsList p es

end

mutual

/-- Model of `allAs[T]` / `allAsBool` from chain.go for capability `p`:
the list of nodes the walker yields, in yield order (depth-first pre-order:
the node itself if it satisfies `p`, then the recursion into its unwrap
children). -/
def allAsList (p : Err → Bool) : Err → List Err
  | e@(.E _ _ c) => (if p e then [e] else []) ++ allAsListOpt p c
  | e@(.wrap _ c) => (if p e then [e] else []) ++ allAsList p c
  | e@(.joinErr cs) => (if p e then [e] else []) ++ allAsListMany p cs
  | e => if p e then [e] else []

/-- The walker entered through an `Unwrap() error` edge that may be nil. -/
def allAsListOpt (p : Err → Bool) : Option Err → List Err
  | none => []
  | some e => allAsList p e

/-- The walker iterating over an `Unwrap() []error` list. -/
def allAsListMany (p : Err → Bool) : List Err → List Err
  | [] => []
  | e :: es => allAsList p e ++ allAsListMany p es

end

mutual

/-- Fusion of `errors.As(err, &um)` followed by `um.UserMessage()`:
`some v` when a `UserMessenger` node exists in `err`'s tree, where `v` is the
value its `UserMessage()` method returns (which for an `E` node recursively
performs the same `errors.As` search on its cause, per e.go); `none` when no
node implements the capability. -/
def umAs : Err → Option String
  | .E _ m c => some (if m ≠ "" then m else
      match umAsOpt c with
      | some v => v
      | none => "")
  | .msgOnly s => some s
  | .wrap _ c => umAs c
  | .joinErr cs => umAsList cs
  | _ => none

/-- `umAs` through a possibly-nil `Unwrap() error` edge. -/
def umAsOpt : Option Err → Option String
  | none => none
  | some e => umAs e

/-- `umAs` over an `Unwrap() []error` list, first hit wins. -/
def umAsList : List Err → Option String
  | [] => none
  | e :: es =>
    match umAs e with
    | some v => some v
    | none => umAsList es

end

/-- `E.UserMessage` from e.go: own message if non-empty, else the message of
the first `UserMessenger` found in the cause (via `errors.As`), else `""`. -/
def E.UserMessage (M : String) (cause : Option Err) : String :=
  if M ≠ "" then M else
    match umAsOpt cause with
    | some v => v
    | none => ""

/-- The value a `UserMessenger` node's `UserMessage()` method returns
(meaningful only on nodes satisfying `isUserMessenger`). -/
def umMethod : Err → String
  | .E _ m c => E.UserMessage m c
  | .msgOnly s => s
  | _ => ""

/-- Model of `errors.As(err, &timeouter) && timeouter.Timeout()` from
resperr.go: find the first node exposing `Timeout() bool` and ask it. -/
def timeoutTrue (e : Err) : Bool :=
  match findAs isTimeouter e with
  | some (.timeoutErr b) => b
  | _ => false

/-- Model of `errors.As(err, &temper) && temper.Temporary()`. -/
def temporaryTrue (e : Err) : Bool :=
  match findAs isTemporaryer e with
  | some (.temporaryErr b) => b
  | _ => false

/-- The fallback tail of `StatusCode` from resperr.go, reached when the
`allAs[StatusCoder]` walk finds no non-zero status: probe `Timeout()`, then
`Temporary()`, then a non-empty `errors.As`-found user message, else 500. -/
def fallbackCode (e : Err) : Nat :=
  if timeoutTrue e then 504
  else if temporaryTrue e then 503
  else if (match umAs e with
           | some v => v ≠ ""
           | none => false : Bool) then 400
  else 500

mutual

/-- The `for sc := range allAs[StatusCoder](err)` loop of `StatusCode`,
fused with the walker: the first non-zero `StatusCode()` method value among
the `StatusCoder` nodes in yield order.  The `StatusCode()` method of an `E`
node (e.go) is inlined here for structural recursion: own status if
non-zero, else the cause's full resolution (its own walk, else its fallback
ladder), else 0; the lemma `scWalk_E` below re-states this case in terms of
`EStatusCode` exactly as e.go writes it. -/
def scWalk : Err → Option Nat
  | .E s _ c =>
    let v := if s ≠ 0 then s else
      match c with
      | some ce =>
        (match scWalk ce with
         | some code => code
         | none => fallbackCode ce)
      | none => 0
    if v ≠ 0 then some v else scWalkOpt c
  | .validatorErrors _ => some 400
  | .wrap _ c => scWalk c
  | .joinErr cs => scWalkList cs
  | _ => none

/-- The loop walking through a possibly-nil `Unwrap() error` edge. -/
def scWalkOpt : Option Err → Option Nat
  | none => none
  | some e => scWalk e

/-- The loop walking each member of an `Unwrap() []error` list. -/
def scWalkList : List Err → Option Nat
  | [] => none
  | e :: es =>
    match scWalk e with
    | some c => some c
    | none => scWalkList es

end

/-- `StatusCode` from resperr.go (current generation): 200 for nil; else the
first non-zero `StatusCode()` yielded by the `allAs[StatusCoder]` walk; else
504 if a `Timeout()` probe is found and reports true; else 503 if a
`Temporary()` probe is found and reports true; else 400 if a `UserMessenger`
is found and its message is non-empty; else 500. -/
def StatusCode : Option Err → Nat
  | none => 200
  | some e =>
    match scWalk e with
    | some c => c
    | none => fallbackCode e

/-- `E.StatusCode` from e.go (written `EStatusCode`: a dotted name would
shadow the package-level `StatusCode` inside its own body): own status when non-zero; else the cause's
fully resolved status when a cause is present; else 0 (fully deferred). -/
def EStatusCode (S : Nat) (cause : Option Err) : Nat :=
  if S ≠ 0 then S
  else
    match cause with
    | some ce => StatusCode (some ce)
    | none => 0

/-- Sanity check that the inlining inside `scWalk`'s `E` case is exactly the
`EStatusCode` method followed by the skip-on-zero test, as the source
composes them. -/
theorem scWalk_E (s : Nat) (m : String) (c : Option Err) :
    scWalk (.E s m c) =
      if EStatusCode s c ≠ 0 then some (EStatusCode s c) else scWalkOpt c := by
  cases c with
  | none => simp [scWalk, EStatusCode]
  | some ce => simp [scWalk, EStatusCode, StatusCode]

mutual

/-- The `for um := range allAs[UserMessenger](err)` loop of `UserMessage`,
fused with the walker: the first non-empty `UserMessage()` method value
among the `UserMessenger` nodes in yield order. -/
def umWalk : Err → Option String
  | .E _ m c =>
    if E.UserMessage m c ≠ "" then some (E.UserMessage m c) else umWalkOpt c
  | .msgOnly s => if s ≠ "" then some s else none
  | .wrap _ c => umWalk c
  | .joinErr cs => umWalkList cs
  | _ => none

/-- The loop through a possibly-nil `Unwrap() error` edge. -/
def umWalkOpt : Option Err → Option String
  | none => none
  | some e => umWalk e

/-- The loop over an `Unwrap() []error` list. -/
def umWalkList : List Err → Option String
  | [] => none
  | e :: es =>
    match umWalk e with
    | some v => some v
    | none => umWalkList es

end

/-- `UserMessage` from resperr.go (current generation): `""` for nil; else
the first non-empty message yielded by the walk; else the standard status
text of the resolved status code. -/
def UserMessage : Option Err → String
  | none => ""
  | some e =>
    match umWalk e with
    | some s => s
    | none => statusText (StatusCode (some e))

/-- The `StatusCode()` method value of a `StatusCoder` node (meaningful only
on nodes satisfying `isStatusCoder`): `E` resolves per e.go, and
`validatorErrors.StatusCode()` is the constant 400 from validator.go. -/
def scMethod : Err → Nat
  | .E s _ c => EStatusCode s c
  | .validatorErrors _ => 400
  | _ => 0

/-- Claim-side view: the `StatusCode()` values of the `StatusCoder` nodes in
walker yield order. -/
def scNodes (e : Err) : List Nat := (allAsList isStatusCoder e).map scMethod

/-- Claim-side view: the `UserMessage()` values of the `UserMessenger` nodes
in walker yield order. -/
def umNodes (e : Err) : List String := (allAsList isUserMessenger e).map umMethod

/-- Model of Go 1.22's `cmp.Or` at type `string`: the first non-empty
argument, else `""`. -/
def cmpOr (a b : String) : String := if a ≠ "" then a else b

/-- The tail of e.go's `E.Error` after the flattening loop: default the
status (0 becomes 400 with a flattened message, 500 without), synthesize a
cause display from the status text when the terminal cause is nil, and
format.  Note the format prints `e.M` (the outer message, `origM`) although
the guard tests the flattened message `mFlat`. -/
def EErrorRender (code0 : Nat) (origM mFlat : String) (causeStr : Option String) : String :=
  let code := if code0 = 0 then (if mFlat ≠ "" then 400 else 500) else code0
  let errStr :=
    match causeStr with
    | some s => s
    | none => statusText code
  if mFlat ≠ "" then "[" ++ toString code ++ "] <" ++ origM ++ "> " ++ errStr
  else "[" ++ toString code ++ "] " ++ errStr

/-- Insertion into a key-sorted association list (model of the key sorting
performed by `url.Values.Encode`). -/
def insertSorted (kv : String × List String) :
    List (String × List String) → List (String × List String)
  | [] => [kv]
  | kv2 :: rest =>
    if kv.1 ≤ kv2.1 then kv :: kv2 :: rest else kv2 :: insertSorted kv rest

/-- Key sort of an association list, as `url.Values.Encode` sorts keys. -/
def sortByKey : List (String × List String) → List (String × List String)
  | [] => []
  | kv :: rest => insertSorted kv (sortByKey rest)

/-- `validatorErrors.Error()` rendering from validator.go:
`url.QueryUnescape(url.Values(ve).Encode())` with `&` replaced by a space —
i.e. `key=message` entries, keys in sorted order, joined by spaces. -/
def renderValues (vs : List (String × List String)) : String :=
  String.intercalate " "
    ((sortByKey vs).flatMap (fun kv => kv.2.map (fun msg => kv.1 ++ "=" ++ msg)))

mutual

/-- `Error()` display strings of each modelled error type.  `E`'s case is
e.go's `Error` method (see `EErrorFlat`); `wrap` is fmt.Errorf's single-%w
wrapping (format text prefix, then the wrapped error's display); `joinErr`
is errors.Join's newline join; `timeoutErr` stands for
context.DeadlineExceeded. -/
def ErrError : Err → String
  | .E s m c => EErrorFlat (EStatusCode s c) m m c
  | .base msg => msg
  | .wrap pre c => pre ++ ErrError c
  | .joinErr cs => String.intercalate "\n" (ErrErrorList cs)
  | .msgOnly s => "<" ++ s ++ ">"
  | .timeoutErr _ => "context deadline exceeded"
  | .temporaryErr _ => "temporary error"
  | .validatorErrors vs => "validation error: " ++ renderValues vs

/-- The flattening loop of e.go's `E.Error`: descend through the leading run
of nested `E` causes, accumulating the first non-empty message via `cmp.Or`,
until a non-`E` (or nil) terminal cause is reached, then render via
`EErrorRender`.  `code0` is `e.StatusCode()` of the original value. -/
def EErrorFlat (code0 : Nat) (origM mFlat : String) : Option Err → String
  | some (.E _ m2 c2) => EErrorFlat code0 origM (cmpOr mFlat m2) c2
  | some t => EErrorRender code0 origM mFlat (some (ErrError t))
  | none => EErrorRender code0 origM mFlat none

/-- Display strings of a list of errors (for errors.Join). -/
def ErrErrorList : List Err → List String
  | [] => []
  | e :: es => ErrError e :: ErrErrorList es

end

/-- `E.Error` from e.go, as a function of the three fields of `E`. -/
def E.Error (S : Nat) (M : String) (cause : Option Err) : String :=
  EErrorFlat (EStatusCode S cause) M M cause

/-- The Validator mapping: Go's `url.Values` (`map[string][]string`) as an
association list in key insertion order; per-key message order is slice
append order.  The nil map and the empty map both model as `[]`. -/
abbrev Validator : Type := List (String × List String)

/-- `url.Values.Add`: append the value to the slice at the key, creating the
entry if absent. -/
def addValue : Validator → String → String → Validator
  | [], field, msg => [(field, [msg])]
  | (k, ms) :: rest, field, msg =>
    if k = field then (k, ms ++ [msg]) :: rest
    else (k, ms) :: addValue rest field msg

/-- Lookup `(*v)[field]`: the message slice recorded for a field (`[]` for a
missing key, as Go's nil slice). -/
def Validator.get (v : Validator) (field : String) : List String :=
  match v.find? (fun kv => kv.1 == field) with
  | some kv => kv.2
  | none => []

/-- `Validator.Add` from the v2 AddIf surface: format and record a message
for a field unconditionally (lazily allocating the map, which the value
model renders trivial).  Formatting (`fmt.Sprintf`) is applied before entry,
so `msg` is the formatted message. -/
def Validator.Add (v : Validator) (field msg : String) : Validator :=
  addValue v field msg

/-- `Validator.AddIf`: record the message only when `cond` is true. -/
def Validator.AddIf (v : Validator) (field : String) (cond : Bool) (msg : String) :
    Validator :=
  if cond then Validator.Add v field msg else v

/-- `Validator.AddIfUnset`: record only when `cond` is true and the field
has no recorded messages yet. -/
def Validator.AddIfUnset (v : Validator) (field : String) (cond : Bool) (msg : String) :
    Validator :=
  if (Validator.get v field).length > 0 then v else Validator.AddIf v field cond msg

/-- `Validator.Ensure` from validator.go (current surface): record the
message when `cond` is NOT met. -/
def Validator.Ensure (v : Validator) (field : String) (cond : Bool) (msg : String) :
    Validator :=
  if cond then v else addValue v field msg

/-- `Validator.EnsureIf`: record when `cond` is not met and the field has no
recorded messages yet. -/
def Validator.EnsureIf (v : Validator) (field : String) (cond : Bool) (msg : String) :
    Validator :=
  if (Validator.get v field).length > 0 then v else Validator.Ensure v field cond msg

/-- `Validator.Err`: nil when the mapping is empty, else the
`validatorErrors` view over the very same mapping. -/
def Validator.Err (v : Validator) : Option Err :=
  if v.length < 1 then none else some (.validatorErrors v)

/-- `Validator.Valid`: true iff the mapping is empty. -/
def Validator.Valid (v : Validator) : Bool := v.length == 0

/-- `ValidationErrors` from validator.go: the mapping of the first
`ValidationError` in the chain, else the nil mapping (modelled `[]`). -/
def ValidationErrors : Option Err → Validator
  | none => []
  | some e =>
    match findAs isValidationError e with
    | some (.validatorErrors vs) => vs
    | _ => []

/-! ## Claim-side reformulations

The fused recursive walkers above mirror the source's control flow.  The
claims of the specification speak instead about the *sequence* of capability
nodes the walker yields; the definitions below give that declarative view,
and the lemmas connect the two.
-/

/-- The resolution ladder exactly as claim C1 words it, including its
literal reading of the message fallback: 400 when SOME node in the chain
yields a non-empty user message. -/
def statusCodeClaimC1 (e : Err) : Nat :=
  match (scNodes e).find? (fun c => decide (c ≠ 0)) with
  | some c => c
  | none =>
    if timeoutTrue e then 504
    else if temporaryTrue e then 503
    else if (umNodes e).any (fun s => decide (s ≠ "")) then 400
    else 500

/-- The resolution ladder with the code's actual message fallback: the 400
step consults only the first `UserMessenger` in the chain (the one
`errors.As` finds, i.e. the head of the yield sequence). -/
def statusCodeLadder (e : Err) : Nat :=
  match (scNodes e).find? (fun c => decide (c ≠ 0)) with
  | some c => c
  | none =>
    if timeoutTrue e then 504
    else if temporaryTrue e then 503
    else if (match (umNodes e).head? with
             | some v => v ≠ ""
             | none => false : Bool) then 400
    else 500

/-! ## A mutual induction principle for the error tree -/

mutual

/-- Induction over `Err` with simultaneous motives for the child shapes
(`List Err` of a multi-cause node, `Option Err` of a nilable cause). -/
theorem errInduct (P : Err → Prop) (Q : List Err → Prop) (R : Option Err → Prop)
    (hbase : ∀ s, P (.base s))
    (hwrap : ∀ pre c, P c → P (.wrap pre c))
    (hjoin : ∀ cs, Q cs → P (.joinErr cs))
    (hE : ∀ s m c, R c → P (.E s m c))
    (hmsg : ∀ s, P (.msgOnly s))
    (htime : ∀ b, P (.timeoutErr b))
    (htemp : ∀ b, P (.temporaryErr b))
    (hvals : ∀ vs, P (.validatorErrors vs))
    (hnil : Q [])
    (hcons : ∀ e es, P e → Q es → Q (e :: es))
    (hnone : R none)
    (hsome : ∀ e, P e → R (some e)) : ∀ e, P e
  | .base s => hbase s
  | .wrap pre c => hwrap pre c
      (errInduct P Q R hbase hwrap hjoin hE hmsg htime htemp hvals hnil hcons hnone hsome c)
  | .joinErr cs => hjoin cs
      (errInductMany P Q R hbase hwrap hjoin hE hmsg htime htemp hvals hnil hcons hnone hsome cs)
  | .E s m c => hE s m c
      (errInductOpt P Q R hbase hwrap hjoin hE hmsg htime htemp hvals hnil hcons hnone hsome c)
  | .msgOnly s => hmsg s
  | .timeoutErr b => htime b
  | .temporaryErr b => htemp b
  | .validatorErrors vs => hvals vs

/-- The list component of `errInduct`. -/
theorem errInductMany (P : Err → Prop) (Q : List Err → Prop) (R : Option Err → Prop)
    (hbase : ∀ s, P (.base s))
    (hwrap : ∀ pre c, P c → P (.wrap pre c))
    (hjoin : ∀ cs, Q cs → P (.joinErr cs))
    (hE : ∀ s m c, R c → P (.E s m c))
    (hmsg : ∀ s, P (.msgOnly s))
    (htime : ∀ b, P (.timeoutErr b))
    (htemp : ∀ b, P (.temporaryErr b))
    (hvals : ∀ vs, P (.validatorErrors vs))
    (hnil : Q [])
    (hcons : ∀ e es, P e → Q es → Q (e :: es))
    (hnone : R none)
    (hsome : ∀ e, P e → R (some e)) : ∀ cs, Q cs
  | [] => hnil
  | e :: es => hcons e es
      (errInduct P Q R hbase hwrap hjoin hE hmsg htime htemp hvals hnil hcons hnone hsome e)
      (errInductMany P Q R hbase hwrap hjoin hE hmsg htime htemp hvals hnil hcons hnone hsome es)

/-- The option component of `errInduct`. -/
theorem errInductOpt (P : Err → Prop) (Q : List Err → Prop) (R : Option Err → Prop)
    (hbase : ∀ s, P (.base s))
    (hwrap : ∀ pre c, P c → P (.wrap pre c))
    (hjoin : ∀ cs, Q cs → P (.joinErr cs))
    (hE : ∀ s m c, R c → P (.E s m c))
    (hmsg : ∀ s, P (.msgOnly s))
    (htime : ∀ b, P (.timeoutErr b))
    (htemp : ∀ b, P (.temporaryErr b))
    (hvals : ∀ vs, P (.validatorErrors vs))
    (hnil : Q [])
    (hcons : ∀ e es, P e → Q es → Q (e :: es))
    (hnone : R none)
    (hsome : ∀ e, P e → R (some e)) : ∀ c, R c
  | none => hnone
  | some e => hsome e
      (errInduct P Q R hbase hwrap hjoin hE hmsg htime htemp hvals hnil hcons hnone hsome e)

end

/-- All three components of `errInduct` at once. -/
theorem errInductAll (P : Err → Prop) (Q : List Err → Prop) (R : Option Err → Prop)
    (hbase : ∀ s, P (.base s))
    (hwrap : ∀ pre c, P c → P (.wrap pre c))
    (hjoin : ∀ cs, Q cs → P (.joinErr cs))
    (hE : ∀ s m c, R c → P (.E s m c))
    (hmsg : ∀ s, P (.msgOnly s))
    (htime : ∀ b, P (.timeoutErr b))
    (htemp : ∀ b, P (.temporaryErr b))
    (hvals : ∀ vs, P (.validatorErrors vs))
    (hnil : Q [])
    (hcons : ∀ e es, P e → Q es → Q (e :: es))
    (hnone : R none)
    (hsome : ∀ e, P e → R (some e)) :
    (∀ e, P e) ∧ (∀ cs, Q cs) ∧ (∀ c, R c) :=
  ⟨errInduct P Q R hbase hwrap hjoin hE hmsg htime htemp hvals hnil hcons hnone hsome,
   errInductMany P Q R hbase hwrap hjoin hE hmsg htime htemp hvals hnil hcons hnone hsome,
   errInductOpt P Q R hbase hwrap hjoin hE hmsg htime htemp hvals hnil hcons hnone hsome⟩

/-! ## List helpers -/

/-- `find?` over an append, stated with an explicit match. -/
theorem find_append_match {α : Type} (p : α → Bool) (l1 l2 : List α) :
    (l1 ++ l2).find? p =
      (match l1.find? p with
       | some a => some a
       | none => l2.find? p) := by
  induction l1 with
  | nil => simp
  | cons a t ih =>
    by_cases h : p a = true
    · simp [List.find?_cons_of_pos _ h]
    · simp [List.find?_cons_of_neg _ h, ih]

/-- `head?` over an append, stated with an explicit match. -/
theorem head_append_match {α : Type} (l1 l2 : List α) :
    (l1 ++ l2).head? =
      (match l1.head? with
       | some a => some a
       | none => l2.head?) := by
  cases l1 <;> simp

/-! ## The walkers compute first matches over the yield sequences -/

/-- The yield sequence of the status walk at an `E` node: the node's own
method value, then the continuation into the cause. -/
theorem scNodes_E (s : Nat) (m : String) (c : Option Err) :
    scNodes (.E s m c) =
      EStatusCode s c :: (allAsListOpt isStatusCoder c).map scMethod := by
  simp [scNodes, allAsList, isStatusCoder, scMethod]

/-- The yield sequence of the message walk at an `E` node. -/
theorem umNodes_E (s : Nat) (m : String) (c : Option Err) :
    umNodes (.E s m c) =
      E.UserMessage m c :: (allAsListOpt isUserMessenger c).map umMethod := by
  simp [umNodes, allAsList, isUserMessenger, umMethod]

/-- The yield sequence of the message walk at an `m` node. -/
theorem umNodes_msgOnly (s : String) : umNodes (.msgOnly s) = [s] := by
  simp [umNodes, allAsList, isUserMessenger, umMethod]

/-- The fused status walk returns exactly the first non-zero `StatusCode()`
method value in the `allAs[StatusCoder]` yield sequence (in all three
traversal positions). -/
theorem scWalk_eq_all :
    (∀ e, scWalk e = (scNodes e).find? (fun c => decide (c ≠ 0)))
    ∧ (∀ cs, scWalkList cs =
        ((allAsListMany isStatusCoder cs).map scMethod).find? (fun c => decide (c ≠ 0)))
    ∧ (∀ c, scWalkOpt c =
        ((allAsListOpt isStatusCoder c).map scMethod).find? (fun c => decide (c ≠ 0))) := by
  refine errInductAll _ _ _ ?_ ?_ ?_ ?_ ?_ ?_ ?_ ?_ ?_ ?_ ?_ ?_
  · intro s; simp [scWalk, scNodes, allAsList, isStatusCoder]
  · intro pre c ih; simpa [scWalk, scNodes, allAsList, isStatusCoder] using ih
  · intro cs ih; simpa [scWalk, scNodes, allAsList, isStatusCoder] using ih
  · intro s m c ih
    rw [scWalk_E, scNodes_E]
    by_cases h : EStatusCode s c ≠ 0
    · rw [if_pos h, List.find?_cons_of_pos _ (by simpa using h)]
    · rw [if_neg h, List.find?_cons_of_neg _ (by simpa using h), ih]
  · intro s; simp [scWalk, scNodes, allAsList, isStatusCoder]
  · intro b; simp [scWalk, scNodes, allAsList, isStatusCoder]
  · intro b; simp [scWalk, scNodes, allAsList, isStatusCoder]
  · intro vs; simp [scWalk, scNodes, allAsList, isStatusCoder, scMethod]
  · simp [scWalkList, allAsListMany]
  · intro e es ihe ihes
    simp only [scWalkList, allAsListMany, List.map_append, find_append_match, ihe, ihes,
      scNodes]
    cases List.find? (fun c => decide (c ≠ 0)) (List.map scMethod (allAsList isStatusCoder e)) <;>
      rfl
  · simp [scWalkOpt, allAsListOpt]
  · intro e ih; simpa [scWalkOpt, allAsListOpt, scNodes] using ih

/-- The fused message walk returns exactly the first non-empty
`UserMessage()` method value in the `allAs[UserMessenger]` yield
sequence. -/
theorem umWalk_eq_all :
    (∀ e, umWalk e = (umNodes e).find? (fun s => decide (s ≠ "")))
    ∧ (∀ cs, umWalkList cs =
        ((allAsListMany isUserMessenger cs).map umMethod).find? (fun s => decide (s ≠ "")))
    ∧ (∀ c, umWalkOpt c =
        ((allAsListOpt isUserMessenger c).map umMethod).find? (fun s => decide (s ≠ ""))) := by
  refine errInductAll _ _ _ ?_ ?_ ?_ ?_ ?_ ?_ ?_ ?_ ?_ ?_ ?_ ?_
  · intro s; simp [umWalk, umNodes, allAsList, isUserMessenger]
  · intro pre c ih; simpa [umWalk, umNodes, allAsList, isUserMessenger] using ih
  · intro cs ih; simpa [umWalk, umNodes, allAsList, isUserMessenger] using ih
  · intro s m c ih
    rw [show umWalk (.E s m c) =
          if E.UserMessage m c ≠ "" then some (E.UserMessage m c) else umWalkOpt c from rfl,
      umNodes_E]
    by_cases h : E.UserMessage m c ≠ ""
    · rw [if_pos h, List.find?_cons_of_pos _ (by simpa using h)]
    · rw [if_neg h, List.find?_cons_of_neg _ (by simpa using h), ih]
  · intro s
    rw [show umWalk (.msgOnly s) = if s ≠ "" then some s else none from rfl, umNodes_msgOnly]
    by_cases h : s ≠ ""
    · rw [if_pos h, List.find?_cons_of_pos _ (by simpa using h)]
    · rw [if_neg h, List.find?_cons_of_neg _ (by simpa using h)]
      simp
  · intro b; simp [umWalk, umNodes, allAsList, isUserMessenger]
  · intro b; simp [umWalk, umNodes, allAsList, isUserMessenger]
  · intro vs; simp [umWalk, umNodes, allAsList, isUserMessenger]
  · simp [umWalkList, allAsListMany]
  · intro e es ihe ihes
    simp only [umWalkList, allAsListMany, List.map_append, find_append_match, ihe, ihes,
      umNodes]
    cases List.find? (fun s => decide (s ≠ "")) (List.map umMethod (allAsList isUserMessenger e)) <;>
      rfl
  · simp [umWalkOpt, allAsListOpt]
  · intro e ih; simpa [umWalkOpt, allAsListOpt, umNodes] using ih

/-- The fused `errors.As` message lookup returns exactly the head of the
`allAs[UserMessenger]` yield sequence's method values: `errors.As` finds the
first capability node in the same pre-order the walker uses. -/
theorem umAs_eq_all :
    (∀ e, umAs e = (umNodes e).head?)
    ∧ (∀ cs, umAsList cs = ((allAsListMany isUserMessenger cs).map umMethod).head?)
    ∧ (∀ c, umAsOpt c = ((allAsListOpt isUserMessenger c).map umMethod).head?) := by
  refine errInductAll _ _ _ ?_ ?_ ?_ ?_ ?_ ?_ ?_ ?_ ?_ ?_ ?_ ?_
  · intro s; simp [umAs, umNodes, allAsList, isUserMessenger]
  · intro pre c ih; simpa [umAs, umNodes, allAsList, isUserMessenger] using ih
  · intro cs ih; simpa [umAs, umNodes, allAsList, isUserMessenger] using ih
  · intro s m c _
    simp [umAs, umNodes, allAsList, isUserMessenger, umMethod, E.UserMessage]
  · intro s; simp [umAs, umNodes, allAsList, isUserMessenger, umMethod]
  · intro b; simp [umAs, umNodes, allAsList, isUserMessenger]
  · intro b; simp [umAs, umNodes, allAsList, isUserMessenger]
  · intro vs; simp [umAs, umNodes, allAsList, isUserMessenger]
  · simp [umAsList, allAsListMany]
  · intro e es ihe ihes
    simp only [umAsList, allAsListMany, List.map_append, head_append_match, ihe, ihes,
      umNodes]
    cases (List.map umMethod (allAsList isUserMessenger e)).head? <;> rfl
  · simp [umAsOpt, allAsListOpt]
  · intro e ih; simpa [umAsOpt, allAsListOpt, umNodes] using ih

/-- Per-key append lemma for the validator mapping: `Add` appends the
message to exactly the addressed field's slice. -/
theorem get_addValue (v : Validator) (f msg : String) :
    Validator.get (addValue v f msg) f = Validator.get v f ++ [msg] := by
  induction v with
  | nil => simp [addValue, Validator.get]
  | cons kv t ih =>
    obtain ⟨k, ms⟩ := kv
    by_cases h : k = f
    · subst h
      simp [addValue, Validator.get, List.find?]
    · have hb : (k == f) = false := by simp [h]
      have h1 : addValue ((k, ms) :: t) f msg = (k, ms) :: addValue t f msg := by
        simp [addValue, h]
      have h2 : ∀ (rest : Validator),
          Validator.get ((k, ms) :: rest) f = Validator.get rest f := by
        intro rest
        simp [Validator.get, List.find?, hb]
      rw [h1, h2 (addValue t f msg), h2 t, ih]

/-! ## The claims -/

/-- Claim C1 (counterexample): the claim reads the message fallback as "400
when SOME node in the chain yields a non-empty user message", but the code
asks only the first `UserMessenger` that `errors.As` finds.  On a join of an
empty-message node before a node with message "hi", the claim's ladder gives
400 while the code resolves 500. -/
theorem claim_C1_counterexample :
    statusCodeClaimC1 (.joinErr [.msgOnly "", .msgOnly "hi"]) = 400 ∧
    StatusCode (some (.joinErr [.msgOnly "", .msgOnly "hi"])) = 500 := ⟨rfl, rfl⟩

/-- Claim C1 (amended): for every non-nil error, `StatusCode` follows the
precedence ladder: first non-zero status among the `StatusCoder` nodes in
traversal order (zeros skipped); else 504 on a true `Timeout()` probe; else
503 on a true `Temporary()` probe; else 400 when the FIRST `UserMessenger`
node found in the chain yields a non-empty message; else 500. -/
theorem claim_C1_status_resolution (e : Err) :
    StatusCode (some e) = statusCodeLadder e := by
  have h1 := scWalk_eq_all.1 e
  have h2 := umAs_eq_all.1 e
  simp only [StatusCode, statusCodeLadder, fallbackCode, h1, h2]

/-- Claim C2: `UserMessage nil = ""` and `StatusCode nil = 200`; for every
non-nil error, `UserMessage` returns the first non-empty `UserMessage()`
value among the `UserMessenger` nodes in traversal order (empty messages
skipped as deferrals), and when none exists it returns the standard status
text of the resolved status. -/
theorem claim_C2_user_message_resolution :
    UserMessage none = "" ∧ StatusCode none = 200 ∧
    ∀ e, UserMessage (some e) =
      (match (umNodes e).find? (fun s => decide (s ≠ "")) with
       | some s => s
       | none => statusText (StatusCode (some e))) := by
  refine ⟨rfl, rfl, fun e => ?_⟩
  have h := umWalk_eq_all.1 e
  simp only [UserMessage, h]

/-- Claim C3: the accessor `E.StatusCode` returns the node's own status when
non-zero; else, with a cause present, the cause's fully resolved status (so
status 0 wrapping a cause that resolves to 5 yields 5); else 0. -/
theorem claim_C3_E_status_accessor :
    (∀ (s : Nat) (c : Option Err),
        EStatusCode s c =
          if s ≠ 0 then s
          else
            match c with
            | some ce => StatusCode (some ce)
            | none => 0) ∧
    EStatusCode 0 (some (.E 5 "" none)) = 5 ∧
    StatusCode (some (.E 5 "" none)) = 5 :=
  ⟨fun s c => by cases c <;> rfl, rfl, rfl⟩

/-- Claim C4: the fully-unset annotated error (status 0, message "", no
cause) still resolves deterministically to 500 / "Internal Server Error". -/
theorem claim_C4_unset_defaults :
    StatusCode (some (.E 0 "" none)) = 500 ∧
    UserMessage (some (.E 0 "" none)) = "Internal Server Error" := ⟨rfl, rfl⟩

/-- Claim C5 (evaluation at the failing input): e.go's `Error()` guards the
message branch on the flattened message but prints the OUTER message field,
so an outer `E` with empty message over an inner `E` with message "hi"
renders empty angle brackets instead of the first non-empty flattened
message; the second conjunct shows the rendering when the outer message
itself is set. -/
theorem claim_C5_display_eval :
    E.Error 0 "" (some (.E 0 "hi" none)) = "[400] <> Bad Request" ∧
    E.Error 0 "hi" none = "[400] <hi> Bad Request" := ⟨rfl, rfl⟩

/-- Claim C6: after `AddIf "n" true "Please enter a number."` on the zero
validator, `Err` is a non-nil validation error over that very mapping,
`Valid` is false, extracting validation errors recovers the mapping, and the
resolved status is 400; moreover `Err` is nil exactly on the empty mapping
and otherwise returns the view backed by the validator's own mapping. -/
theorem claim_C6_validator_basic :
    Validator.AddIf [] "n" true "Please enter a number."
      = [("n", ["Please enter a number."])] ∧
    Validator.Err [("n", ["Please enter a number."])]
      = some (.validatorErrors [("n", ["Please enter a number."])]) ∧
    Validator.Valid [("n", ["Please enter a number."])] = false ∧
    ValidationErrors (Validator.Err [("n", ["Please enter a number."])])
      = [("n", ["Please enter a number."])] ∧
    StatusCode (Validator.Err [("n", ["Please enter a number."])]) = 400 ∧
    (∀ w : Validator, (Validator.Err w = none ↔ w = [])) ∧
    (∀ w : Validator, Validator.Err w = none ∨ Validator.Err w = some (.validatorErrors w)) := by
  refine ⟨rfl, rfl, rfl, rfl, rfl, fun w => ?_, fun w => ?_⟩
  · cases w with
    | nil => simp [Validator.Err]
    | cons kv t => simp [Validator.Err, Nat.lt_one_iff]
  · cases w with
    | nil => exact Or.inl rfl
    | cons kv t =>
      refine Or.inr ?_
      simp [Validator.Err, Nat.lt_one_iff]

/-- Claim C7: `AddIfUnset` records only when the condition holds and the
field is still unset: after recording "first" for "y", a subsequent
`AddIfUnset` on "y" is the identity whatever the condition; and with a false
condition it is the identity on any validator. -/
theorem claim_C7_addIfUnset_guard :
    (∀ (cond : Bool) (msg : String),
        Validator.AddIfUnset (Validator.AddIf [] "y" true "first") "y" cond msg
          = Validator.AddIf [] "y" true "first") ∧
    (∀ (v : Validator) (field msg : String),
        Validator.AddIfUnset v field false msg = v) := by
  constructor
  · intro cond msg; rfl
  · intro v field msg
    simp [Validator.AddIfUnset, Validator.AddIf]

/-- Claim C8 (counterexample): in a diamond — a multi-cause node whose two
branches wrap the SAME node — the walker yields that shared node twice, so
its yield sequence is not duplicate-free. -/
theorem claim_C8_counterexample :
    allAsList isStatusCoder
        (.joinErr [.wrap "a: " (.E 7 "" none), .wrap "b: " (.E 7 "" none)])
      = [.E 7 "" none, .E 7 "" none] ∧
    ¬ ([Err.E 7 "" none, .E 7 "" none] : List Err).Nodup := by
  refine ⟨rfl, ?_⟩
  simp [List.nodup_cons]

/-- Claim C8 (amended): the walker performs no identity de-duplication — it
traverses each branch of a multi-cause node independently, so a node
reachable via two paths is yielded once per path. -/
theorem claim_C8_walk_per_path (x : Err) (s1 s2 : String) :
    allAsList isStatusCoder (.joinErr [.wrap s1 x, .wrap s2 x])
      = allAsList isStatusCoder x ++ allAsList isStatusCoder x := by
  simp [allAsList, allAsListMany, isStatusCoder]

/-- Claim C9 (counterexample): `UserMessage` is NOT always non-empty — an
annotated error with the non-standard explicit status 3 and no message
resolves to status 3, whose standard status text is empty, so the fallback
produces the empty string. -/
theorem claim_C9_counterexample : UserMessage (some (.E 3 "" none)) = "" := rfl

/-- Claim C9 (amended): for every non-nil error, `UserMessage` is non-empty
unless the resolved status code has empty standard text (a non-standard
code); in particular the fallback always renders the resolved status's
standard text, which is non-empty for every standard code including the
defaults 500/504/503/400. -/
theorem claim_C9_presentable (e : Err) :
    UserMessage (some e) ≠ "" ∨ statusText (StatusCode (some e)) = "" := by
  by_cases h : statusText (StatusCode (some e)) = ""
  · exact Or.inr h
  · refine Or.inl ?_
    simp only [UserMessage]
    cases hw : umWalk e with
    | none => simpa using h
    | some s =>
      have heq := umWalk_eq_all.1 e
      rw [heq] at hw
      have hs := List.find?_some hw
      simpa using hs

/-- Claim C10: the current `Ensure`/`EnsureIf` surface has inverted
polarity relative to add/addIf: `Ensure` is the identity when the condition
holds and records (appends to the field's slice) exactly when it fails;
`EnsureIf` additionally is the identity when the field already has a
message, and otherwise coincides with `Ensure`. -/
theorem claim_C10_ensure_polarity :
    (∀ (v : Validator) (field msg : String), Validator.Ensure v field true msg = v) ∧
    (∀ (v : Validator) (field msg : String),
        Validator.Ensure v field false msg = Validator.Add v field msg) ∧
    (∀ (v : Validator) (field msg : String),
        Validator.get (Validator.Ensure v field false msg) field
          = Validator.get v field ++ [msg]) ∧
    (∀ (v : Validator) (field : String) (cond : Bool) (msg : String),
        Validator.get v field ≠ [] → Validator.EnsureIf v field cond msg = v) ∧
    (∀ (v : Validator) (field : String) (cond : Bool) (msg : String),
        Validator.get v field = [] →
          Validator.EnsureIf v field cond msg = Validator.Ensure v field cond msg) := by
  refine ⟨fun v f m => rfl, fun v f m => rfl, fun v f m => get_addValue v f m,
    fun v f cond m h => ?_, fun v f cond m h => ?_⟩
  · simp only [Validator.EnsureIf]
    rw [if_pos]
    exact List.length_pos.mpr h
  · simp only [Validator.EnsureIf]
    rw [if_neg]
    simp [h]

/-- Witness for claim C10 at concrete inputs: a field already carrying "x"
is untouched by `EnsureIf`, and on an empty validator `EnsureIf` coincides
with `Ensure`. -/
theorem claim_C10_ensure_polarity_witness :
    Validator.EnsureIf [("a", ["x"])] "a" false "y" = [("a", ["x"])] ∧
    Validator.EnsureIf [] "a" false "y" = Validator.Ensure [] "a" false "y" :=
  ⟨claim_C10_ensure_polarity.2.2.2.1 [("a", ["x"])] "a" false "y" (by decide),
   claim_C10_ensure_polarity.2.2.2.2 [] "a" false "y" rfl⟩
